import Mathlib

/-!
# airqmetrics: the refresh-and-export cycle of main.go

A shallow embedding of `updateMetrics` and `MetricHandler` from `src/main.go`.

* The outcome of every call into the device (net.Dial, the SMB dial, Mount, Open,
  io.ReadAll and the four deferred teardown calls) is a field of `World`.
* `json.Unmarshal` into the `Measurements` struct is embedded on parsed JSON values,
  following the decoding rules of encoding/json for struct fields tagged `,string`.
* float64 is a type parameter `F`; `strconv.ParseFloat` is a field of `Lib`.
* Every call the function makes is recorded in a trace, and `defer` is a stack
  that is run, last in first out, when the function returns.
-/

namespace AirQ

/-! ## Errors -/

/-- The error values json.Unmarshal can hand back when decoding into `Measurements`. -/
inductive JsonFault where
  /-- A SyntaxError: the scanner rejected the text. -/
  | invalidJSON (msg : String)
  /-- An UnmarshalTypeError with its `Value` field. -/
  | unmarshalType (value : String)
  /-- The error "json: invalid use of ,string struct tag, trying to unmarshal ..."; the
  item is the quoted text, or `none` for an unquoted value. -/
  | stringTag (item : Option String)
  deriving DecidableEq

/-- A Go `error` value, told apart by what made it. -/
inductive GoError where
  /-- An error value made by net, go-smb2 or io. -/
  | device (msg : String)
  /-- An error value made by json.Unmarshal. -/
  | json (fault : JsonFault)
  /-- The value of `errors.New(msg)`. -/
  | errorString (msg : String)
  deriving DecidableEq

/-- The library functions the program relies on and whose code is outside the
repository: the float64 zero value, `strconv.ParseFloat(s, 64)` (`none` when it
returns an error), whether `unquoteBytes` accepts an item, and the text of the
`Error()` method of the json error values. -/
structure Lib (F : Type) where
  zero : F
  ParseFloat : String → Option F
  unquoteOk : String → Bool
  jsonErrorText : JsonFault → String

/-- The method `Error()` of an error value. -/
def GoError.Error {F : Type} (L : Lib F) : GoError → String
  | .device msg => msg
  | .json fault => L.jsonErrorText fault
  | .errorString msg => msg

/-! ## The measurement document -/

/-- A JSON value as the scanner of encoding/json sees it; object members are kept
in document order, repeated keys included. -/
inductive Json where
  | null
  | bool (b : Bool)
  | number (lit : String)
  | string (s : String)
  | array (elems : List Json)
  | object (members : List (String × Json))

/-- The bytes handed to json.Unmarshal: text the scanner rejects (with the message
of its SyntaxError), or a well-formed JSON value. -/
inductive Document where
  | invalid (msg : String)
  | valid (j : Json)

/-- The struct `Measurement` (main.go, lines 25-31). -/
structure Measurement (F : Type) where
  CO2 : F
  Humidity : F
  PM10 : F
  PM25 : F
  Temp : F
  deriving DecidableEq

/-- The five fields of `Measurement`. -/
inductive Field where
  | CO2
  | Humidity
  | PM10
  | PM25
  | Temp
  deriving DecidableEq

/-- The json tag name of a field. -/
def Field.tag : Field → String
  | .CO2 => "co2_ppm"
  | .Humidity => "humidity_RH"
  | .PM10 => "pm10_ugm3"
  | .PM25 => "pm25_ugm3"
  | .Temp => "temperature_C"

/-- The fields in declaration order. -/
def Field.all : List Field := [.CO2, .Humidity, .PM10, .PM25, .Temp]

/-- Read a field of a measurement. -/
def Measurement.get {F : Type} (m : Measurement F) : Field → F
  | .CO2 => m.CO2
  | .Humidity => m.Humidity
  | .PM10 => m.PM10
  | .PM25 => m.PM25
  | .Temp => m.Temp

/-- Store into a field of a measurement. -/
def Measurement.put {F : Type} (m : Measurement F) (f : Field) (x : F) : Measurement F :=
  match f with
  | .CO2 => { m with CO2 := x }
  | .Humidity => { m with Humidity := x }
  | .PM10 => { m with PM10 := x }
  | .PM25 => { m with PM25 := x }
  | .Temp => { m with Temp := x }

/-- The zero value of `Measurement`. -/
def Measurement.zero {F : Type} (L : Lib F) : Measurement F :=
  ⟨L.zero, L.zero, L.zero, L.zero, L.zero⟩

/-! ## json.Unmarshal into `Measurements` -/

/-- Case folding of one rune as far as it matters for matching an ASCII field name:
ASCII letters go to upper case, and the two runes outside ASCII whose simple fold
orbit contains an ASCII letter (U+017F with S, U+212A with K) go to that letter. -/
def foldRune (c : Char) : Char :=
  if 97 ≤ c.toNat ∧ c.toNat ≤ 122 then Char.ofNat (c.toNat - 32)
  else if c.toNat = 0x17F then 'S'
  else if c.toNat = 0x212A then 'K'
  else c

/-- The folded form of a key (`foldName`). -/
def foldName (s : String) : String := String.mk (s.data.map foldRune)

/-- Key lookup of the decoder: an exact match on the tag name first, then a match of
the folded names. -/
def matchesName (name key : String) : Bool :=
  key == name || foldName key == foldName name

/-- The field of `Measurement` an object key is decoded into, if any: exact match
first, then the first field whose folded name matches. -/
def fieldByKey (key : String) : Option Field :=
  match Field.all.find? (fun f => f.tag == key) with
  | some f => some f
  | none => Field.all.find? (fun f => foldName f.tag == foldName key)

/-- The method `saveError`: keep the first saved error. -/
def saveError (saved : Option JsonFault) (e : JsonFault) : Option JsonFault :=
  match saved with
  | none => some e
  | some s => some s

/-- The function `literalStore(item, v, fromQuoted = true)` for a float64 `v`: the
item is the content of the JSON string of a `,string` field. A returned error
aborts decoding; a saved error lets it go on. -/
def literalStoreFloat {F : Type} (L : Lib F) (item : String) (v : F)
    (saved : Option JsonFault) : Except JsonFault (F × Option JsonFault) :=
  match item.data with
  | [] => .ok (v, saveError saved (.stringTag (some item)))
  | c :: _ =>
    if c = 'n' then
      -- null: anything else starting with n is refused, null itself is ignored
      if item ≠ "null" then .ok (v, saveError saved (.stringTag (some item)))
      else .ok (v, saved)
    else if c = 't' ∨ c = 'f' then
      -- true, false, or text starting like them: never a float64
      .ok (v, saveError saved (.stringTag (some item)))
    else if c.toNat = 34 then
      -- a quotation mark: a string inside the string
      if L.unquoteOk item then .ok (v, saveError saved (.unmarshalType "string"))
      else .error (.stringTag (some item))
    else if c ≠ '-' ∧ (c.toNat < 48 ∨ 57 < c.toNat) then
      .error (.stringTag (some item))
    else
      match L.ParseFloat item with
      | none => .ok (v, saveError saved (.unmarshalType ("number " ++ item)))
      | some n => .ok (n, saved)

/-- Decoding the value of a `,string` float64 field (the `destring` branch of
`object`): JSON null leaves the field alone, a JSON string goes through
`literalStoreFloat`, anything else is an unquoted value. -/
def decodeField {F : Type} (L : Lib F) (val : Json) (v : F)
    (saved : Option JsonFault) : Except JsonFault (F × Option JsonFault) :=
  match val with
  | .null => .ok (v, saved)
  | .string s => literalStoreFloat L s v saved
  | _ => .ok (v, saveError saved (.stringTag none))

/-- The method `object` decoding the members of a JSON object into a `Measurement`:
members in document order, unknown keys skipped, a field absent from the object
left as it is. -/
def objectMeasurement {F : Type} (L : Lib F) :
    List (String × Json) → Measurement F → Option JsonFault →
      Except JsonFault (Measurement F × Option JsonFault)
  | [], m, saved => .ok (m, saved)
  | (key, val) :: rest, m, saved =>
    match fieldByKey key with
    | none => objectMeasurement L rest m saved
    | some f =>
      match decodeField L val (m.get f) saved with
      | .error e => .error e
      | .ok (x, saved1) => objectMeasurement L rest (m.put f x) saved1

/-- The method `value` decoding one JSON value into a `Measurement`. -/
def valueMeasurement {F : Type} (L : Lib F) (j : Json) (m : Measurement F)
    (saved : Option JsonFault) : Except JsonFault (Measurement F × Option JsonFault) :=
  match j with
  | .object members => objectMeasurement L members m saved
  | .null => .ok (m, saved)
  | .array _ => .ok (m, saveError saved (.unmarshalType "array"))
  | .bool _ => .ok (m, saveError saved (.unmarshalType "bool"))
  | .string _ => .ok (m, saveError saved (.unmarshalType "string"))
  | .number _ => .ok (m, saveError saved (.unmarshalType "number"))

/-- The method `array` decoding a JSON array into the slice `[]Measurement`, as
json.Unmarshal documents it: the slice length is reset to zero and each element is
appended, decoded into a fresh element. -/
def arrayMeasurements {F : Type} (L : Lib F) :
    List Json → Option JsonFault → Except JsonFault (List (Measurement F) × Option JsonFault)
  | [], saved => .ok ([], saved)
  | x :: xs, saved =>
    match valueMeasurement L x (Measurement.zero L) saved with
    | .error e => .error e
    | .ok (m, saved1) =>
      match arrayMeasurements L xs saved1 with
      | .error e => .error e
      | .ok (ms, saved2) => .ok (m :: ms, saved2)

/-- Decoding the value of the field `Measurements []Measurement`. -/
def valueSlice {F : Type} (L : Lib F) (val : Json) (ms : List (Measurement F))
    (saved : Option JsonFault) : Except JsonFault (List (Measurement F) × Option JsonFault) :=
  match val with
  | .array elems => arrayMeasurements L elems saved
  | .null => .ok ([], saved)
  | .object _ => .ok (ms, saveError saved (.unmarshalType "object"))
  | .bool _ => .ok (ms, saveError saved (.unmarshalType "bool"))
  | .string _ => .ok (ms, saveError saved (.unmarshalType "string"))
  | .number _ => .ok (ms, saveError saved (.unmarshalType "number"))

/-- The method `object` decoding the members of the top-level object into the struct
`Measurements` (one field, tagged "measurements"). -/
def objectMeasurements {F : Type} (L : Lib F) :
    List (String × Json) → List (Measurement F) → Option JsonFault →
      Except JsonFault (List (Measurement F) × Option JsonFault)
  | [], ms, saved => .ok (ms, saved)
  | (key, val) :: rest, ms, saved =>
    if matchesName "measurements" key then
      match valueSlice L val ms saved with
      | .error e => .error e
      | .ok (ms1, saved1) => objectMeasurements L rest ms1 saved1
    else objectMeasurements L rest ms saved

/-- The method `value` decoding the document into the struct `Measurements`, which
starts as its zero value (a nil slice). -/
def valueMeasurements {F : Type} (L : Lib F) (j : Json) :
    Except JsonFault (List (Measurement F) × Option JsonFault) :=
  match j with
  | .object members => objectMeasurements L members [] none
  | .null => .ok ([], none)
  | .array _ => .ok ([], some (.unmarshalType "array"))
  | .bool _ => .ok ([], some (.unmarshalType "bool"))
  | .string _ => .ok ([], some (.unmarshalType "string"))
  | .number _ => .ok ([], some (.unmarshalType "number"))

/-- The call `json.Unmarshal(data, &measurements)` (main.go, line 105): the decoded
field `measurements.Measurements` when the returned error is nil, the error
otherwise (the struct is not read again on that path). A returned error wins over
a saved one. -/
def Unmarshal {F : Type} (L : Lib F) (data : Document) :
    Except JsonFault (List (Measurement F)) :=
  match data with
  | .invalid msg => .error (.invalidJSON msg)
  | .valid j =>
    match valueMeasurements L j with
    | .error e => .error e
    | .ok (_, some e) => .error e
    | .ok (ms, none) => .ok ms

/-! ## Gauges -/

/-- The five gauge variables (main.go, lines 37-58). -/
inductive Gauge where
  | CO2Gauge
  | HumidityGauge
  | PM10Gauge
  | PM25Gauge
  | TempGauge
  deriving DecidableEq

/-- The metric name a gauge is registered under. -/
def Gauge.Name : Gauge → String
  | .CO2Gauge => "co2_ppm"
  | .HumidityGauge => "humidity"
  | .PM10Gauge => "pm10"
  | .PM25Gauge => "pm25"
  | .TempGauge => "temp"

/-- The values held by the five gauges, under their metric names. -/
structure Gauges (F : Type) where
  co2_ppm : F
  humidity : F
  pm10 : F
  pm25 : F
  temp : F
  deriving DecidableEq

/-- The method `Set` of a gauge: overwrite its value. -/
def Gauges.Set {F : Type} (g : Gauges F) (name : Gauge) (v : F) : Gauges F :=
  match name with
  | .CO2Gauge => { g with co2_ppm := v }
  | .HumidityGauge => { g with humidity := v }
  | .PM10Gauge => { g with pm10 := v }
  | .PM25Gauge => { g with pm25 := v }
  | .TempGauge => { g with temp := v }

/-! ## The device and the trace of calls -/

/-- The calls of `updateMetrics` that can fail. -/
inductive Step where
  | dial
  | authenticate
  | mount
  | openFile
  | read
  | decode
  deriving DecidableEq

/-- The resources with a deferred release. -/
inductive Resource where
  | conn
  | session
  | share
  | file
  deriving DecidableEq

/-- What every call into the device returns, were it made: the error of net.Dial,
of the SMB dial, of Mount and of Open (`none` for nil), the result of io.ReadAll,
and the errors returned by f.Close, fs.Umount, s.Logoff and conn.Close. -/
structure World where
  dial : Option GoError
  authenticate : Option GoError
  mount : Option GoError
  openFile : Option GoError
  read : Except GoError Document
  fileClose : Option GoError
  umount : Option GoError
  logoff : Option GoError
  connClose : Option GoError

/-- The error the release call of a resource returns. -/
def World.teardown (w : World) : Resource → Option GoError
  | .file => w.fileClose
  | .share => w.umount
  | .session => w.logoff
  | .conn => w.connClose

/-- One observable action of `updateMetrics`. -/
inductive Event (F : Type) where
  /-- A call of a step and whether it returned a nil error. -/
  | call (s : Step) (ok : Bool)
  /-- A call of `Set` on a gauge. -/
  | set (name : Gauge) (v : F)
  /-- A deferred release call and the error it returned (which is dropped). -/
  | release (r : Resource) (result : Option GoError)
  deriving DecidableEq

/-- The state of one activation of `updateMetrics`: the gauges, the calls made so
far, and the stack of deferred releases (most recent first). -/
structure Frame (F : Type) where
  gauges : Gauges F
  trace : List (Event F)
  deferred : List Resource

/-- What `updateMetrics` leaves behind: the returned error, the gauges, the trace. -/
structure Run (F : Type) where
  err : Option GoError
  gauges : Gauges F
  trace : List (Event F)

/-- Record a call. -/
def Frame.call {F : Type} (fr : Frame F) (s : Step) (ok : Bool) : Frame F :=
  { fr with trace := fr.trace ++ [.call s ok] }

/-- The statement `defer`: push a release on the stack. -/
def Frame.defer {F : Type} (fr : Frame F) (r : Resource) : Frame F :=
  { fr with deferred := r :: fr.deferred }

/-- A call of `Set` on a gauge. -/
def Frame.set {F : Type} (fr : Frame F) (name : Gauge) (v : F) : Frame F :=
  { fr with gauges := fr.gauges.Set name v, trace := fr.trace ++ [.set name v] }

/-- The statement `return err`: run the deferred releases, most recent first,
dropping what they return, then hand back `err`. -/
def Frame.ret {F : Type} (w : World) (fr : Frame F) (err : Option GoError) : Run F :=
  ⟨err, fr.gauges, fr.trace ++ fr.deferred.map (fun r => Event.release r (w.teardown r))⟩

/-- The function `updateMetrics` (main.go, lines 60-124). -/
def updateMetrics {F : Type} (L : Lib F) (w : World) (g : Gauges F) : Run F :=
  let fr : Frame F := ⟨g, [], []⟩
  match w.dial with
  | some err => (fr.call .dial false).ret w (some err)
  | none =>
  let fr := (fr.call .dial true).defer .conn
  match w.authenticate with
  | some err => (fr.call .authenticate false).ret w (some err)
  | none =>
  let fr := (fr.call .authenticate true).defer .session
  match w.mount with
  | some err => (fr.call .mount false).ret w (some err)
  | none =>
  let fr := (fr.call .mount true).defer .share
  match w.openFile with
  | some err => (fr.call .openFile false).ret w (some err)
  | none =>
  let fr := (fr.call .openFile true).defer .file
  match w.read with
  | .error err => (fr.call .read false).ret w (some err)
  | .ok data =>
  let fr := fr.call .read true
  match Unmarshal L data with
  | .error e => (fr.call .decode false).ret w (some (.json e))
  | .ok measurements =>
  let fr := fr.call .decode true
  match measurements with
  | [] => fr.ret w (some (.errorString "sensor returned invalid data"))
  | measurement :: _ =>
  let fr := fr.set .CO2Gauge measurement.CO2
  let fr := fr.set .HumidityGauge measurement.Humidity
  let fr := fr.set .PM10Gauge measurement.PM10
  let fr := fr.set .PM25Gauge measurement.PM25
  let fr := fr.set .TempGauge measurement.Temp
  fr.ret w none

/-! ## The scrape endpoint -/

/-- What `MetricHandler` does to the response writer. -/
inductive HttpEvent (F : Type) where
  /-- The call `w.WriteHeader(status)`. -/
  | writeHeader (status : Nat)
  /-- The call `w.Write(body)`. -/
  | write (body : String)
  /-- The call `promHandler.ServeHTTP(w, r)`, rendering the gauges as they are. -/
  | serveHTTP (g : Gauges F)
  deriving DecidableEq

/-- The outcome of one scrape: the refresh that ran and the calls on the writer. -/
structure Scrape (F : Type) where
  run : Run F
  response : List (HttpEvent F)

/-- The function `MetricHandler` (main.go, lines 128-137). -/
def MetricHandler {F : Type} (L : Lib F) (w : World) (g : Gauges F) : Scrape F :=
  let r := updateMetrics L w g
  match r.err with
  | some err => ⟨r, [.writeHeader 500, .write (err.Error L)]⟩
  | none => ⟨r, [.serveHTTP r.gauges]⟩

/-- Successive scrapes, one per world, each starting from the gauges the previous
one left. -/
def refreshAll {F : Type} (L : Lib F) : List World → Gauges F → Gauges F
  | [], g => g
  | w :: ws, g => refreshAll L ws (updateMetrics L w g).gauges

/-! ## Example inputs -/

/-- The library on the strings of the example documents, with a float64 written as
its IEEE 754 bit pattern: 412.5, 45.2, 3.1, 1.8, 21.4, 999, 50 and 9 are the values
strconv.ParseFloat returns for them, and every other string used in the examples
is one it refuses. -/
def exampleLib : Lib Nat where
  zero := 0
  ParseFloat := fun s =>
    if s = "412.5" then some 0x4079C80000000000
    else if s = "45.2" then some 0x404699999999999A
    else if s = "3.1" then some 0x4008CCCCCCCCCCCD
    else if s = "1.8" then some 0x3FFCCCCCCCCCCCCD
    else if s = "21.4" then some 0x4035666666666666
    else if s = "999" then some 0x408F380000000000
    else if s = "50" then some 0x4049000000000000
    else if s = "9" then some 0x4022000000000000
    else none
  unquoteOk := fun _ => false
  jsonErrorText := fun
    | .invalidJSON msg => msg
    | .unmarshalType value => "json: cannot unmarshal " ++ value
    | .stringTag _ => "json: invalid use of ,string struct tag"

/-- A measurement object carrying the five fields as JSON strings. -/
def measurementObject (co2 humidity pm10 pm25 temp : String) : Json :=
  .object [("co2_ppm", .string co2), ("humidity_RH", .string humidity),
    ("pm10_ugm3", .string pm10), ("pm25_ugm3", .string pm25), ("temperature_C", .string temp)]

/-- The two-element example document of the specification. -/
def exampleDocument : Document :=
  .valid (.object [("measurements", .array [
    measurementObject "412.5" "45.2" "3.1" "1.8" "21.4",
    measurementObject "999" "50" "9" "9" "9"])])

/-- The document with an empty measurement array. -/
def emptyDocument : Document :=
  .valid (.object [("measurements", .array [])])

/-- A device on which every call succeeds and the file holds `data`. -/
def deviceServing (data : Document) : World :=
  ⟨none, none, none, none, .ok data, none, none, none, none⟩

/-- Gauges before any refresh. -/
def freshGauges : Gauges Nat := ⟨0, 0, 0, 0, 0⟩

/-! ## Observations on a trace -/

/-- The steps called in a trace, in order, each with whether it succeeded. -/
def callsOf {F : Type} (tr : List (Event F)) : List (Step × Bool) :=
  tr.filterMap fun
    | .call s ok => some (s, ok)
    | _ => none

/-- The gauges `Set` was called on in a trace, in order. -/
def setsOf {F : Type} (tr : List (Event F)) : List (Gauge × F) :=
  tr.filterMap fun
    | .set name v => some (name, v)
    | _ => none

/-- The resources acquired in a trace, in order: one per successful acquiring call. -/
def acquiredOf {F : Type} (tr : List (Event F)) : List Resource :=
  tr.filterMap fun
    | .call .dial true => some .conn
    | .call .authenticate true => some .session
    | .call .mount true => some .share
    | .call .openFile true => some .file
    | _ => none

/-- The resources released in a trace, in order. -/
def releasedOf {F : Type} (tr : List (Event F)) : List Resource :=
  tr.filterMap fun
    | .release r _ => some r
    | _ => none

/-- Whether an event is a release. -/
def Event.isRelease {F : Type} : Event F → Bool
  | .release _ _ => true
  | _ => false

/-- The six steps in program order. -/
def Step.all : List Step := [.dial, .authenticate, .mount, .openFile, .read, .decode]

/-- The steps that come before a step in program order. -/
def Step.before : Step → List Step
  | .dial => []
  | .authenticate => [.dial]
  | .mount => [.dial, .authenticate]
  | .openFile => [.dial, .authenticate, .mount]
  | .read => [.dial, .authenticate, .mount, .openFile]
  | .decode => [.dial, .authenticate, .mount, .openFile, .read]

/-- The first step that fails on a device, with the error value it produces, read
off the outcomes alone: each step is looked at only when the earlier ones succeed. -/
def firstFailure {F : Type} (L : Lib F) (w : World) : Option (Step × GoError) :=
  match w.dial with
  | some e => some (.dial, e)
  | none =>
  match w.authenticate with
  | some e => some (.authenticate, e)
  | none =>
  match w.mount with
  | some e => some (.mount, e)
  | none =>
  match w.openFile with
  | some e => some (.openFile, e)
  | none =>
  match w.read with
  | .error e => some (.read, e)
  | .ok data =>
  match Unmarshal L data with
  | .error e => some (.decode, .json e)
  | .ok _ => none

/-- The gauge values a measurement is exported as. -/
def Gauges.ofMeasurement {F : Type} (m : Measurement F) : Gauges F :=
  ⟨m.CO2, m.Humidity, m.PM10, m.PM25, m.Temp⟩

/-- The error made at line 111 for an empty measurement array. -/
def emptyDataError : GoError := .errorString "sensor returned invalid data"

/-! ## Predicates on decoding -/

/-- A decoding result that makes json.Unmarshal return an error: a returned error,
or a saved one. -/
def Faulted {α : Type} : Except JsonFault (α × Option JsonFault) → Prop
  | .error _ => True
  | .ok (_, saved) => saved ≠ none

/-- Whether an item starts with a minus sign or a digit. -/
def startsLikeNumber (s : String) : Bool :=
  match s.data with
  | [] => false
  | c :: _ => c = '-' || (48 ≤ c.toNat && c.toNat ≤ 57)

/-- A string that `literalStoreFloat` stores as a number: it starts with a minus sign
or a digit and strconv.ParseFloat accepts it. -/
def Numeric {F : Type} (L : Lib F) (s : String) : Bool :=
  startsLikeNumber s && (L.ParseFloat s).isSome

/-- The members of a measurement object that are decoded into a field all hold a
JSON string that is stored as a number; any of the five fields may be missing. -/
def NumericFields {F : Type} (L : Lib F) (fields : List (String × Json)) : Prop :=
  ∀ key val, (key, val) ∈ fields → fieldByKey key ≠ none →
    ∃ s, val = .string s ∧ Numeric L s = true

/-- No member of a measurement object is decoded into the field `f`. -/
def Lacks (fields : List (String × Json)) (f : Field) : Prop :=
  ∀ key val, (key, val) ∈ fields → fieldByKey key ≠ some f

section PathDef

variable {F : Type} (L : Lib F) (w : World) (g : Gauges F)

/-- The eight paths: every run of `updateMetrics` is one of them. -/
inductive Path : Run F → Prop where
  | dial (e : GoError) (h : w.dial = some e) :
      Path ⟨some e, g, [.call .dial false]⟩
  | authenticate (e : GoError) (h1 : w.dial = none) (h : w.authenticate = some e) :
      Path ⟨some e, g,
        [.call .dial true, .call .authenticate false, .release .conn w.connClose]⟩
  | mount (e : GoError) (h1 : w.dial = none) (h2 : w.authenticate = none)
      (h : w.mount = some e) :
      Path ⟨some e, g,
        [.call .dial true, .call .authenticate true, .call .mount false,
         .release .session w.logoff, .release .conn w.connClose]⟩
  | openFile (e : GoError) (h1 : w.dial = none) (h2 : w.authenticate = none)
      (h3 : w.mount = none) (h : w.openFile = some e) :
      Path ⟨some e, g,
        [.call .dial true, .call .authenticate true, .call .mount true,
         .call .openFile false,
         .release .share w.umount, .release .session w.logoff, .release .conn w.connClose]⟩
  | read (e : GoError) (h1 : w.dial = none) (h2 : w.authenticate = none)
      (h3 : w.mount = none) (h4 : w.openFile = none) (h : w.read = .error e) :
      Path ⟨some e, g,
        [.call .dial true, .call .authenticate true, .call .mount true, .call .openFile true,
         .call .read false,
         .release .file w.fileClose, .release .share w.umount, .release .session w.logoff,
         .release .conn w.connClose]⟩
  | decode (data : Document) (e : JsonFault) (h1 : w.dial = none)
      (h2 : w.authenticate = none) (h3 : w.mount = none) (h4 : w.openFile = none)
      (h5 : w.read = .ok data) (h : Unmarshal L data = .error e) :
      Path ⟨some (.json e), g,
        [.call .dial true, .call .authenticate true, .call .mount true, .call .openFile true,
         .call .read true, .call .decode false,
         .release .file w.fileClose, .release .share w.umount, .release .session w.logoff,
         .release .conn w.connClose]⟩
  | empty (data : Document) (h1 : w.dial = none)
      (h2 : w.authenticate = none) (h3 : w.mount = none) (h4 : w.openFile = none)
      (h5 : w.read = .ok data) (h : Unmarshal L data = .ok []) :
      Path ⟨some emptyDataError, g,
        [.call .dial true, .call .authenticate true, .call .mount true, .call .openFile true,
         .call .read true, .call .decode true,
         .release .file w.fileClose, .release .share w.umount, .release .session w.logoff,
         .release .conn w.connClose]⟩
  | succeeded (data : Document) (m : Measurement F) (rest : List (Measurement F))
      (h1 : w.dial = none)
      (h2 : w.authenticate = none) (h3 : w.mount = none) (h4 : w.openFile = none)
      (h5 : w.read = .ok data) (h : Unmarshal L data = .ok (m :: rest)) :
      Path ⟨none, Gauges.ofMeasurement m,
        [.call .dial true, .call .authenticate true, .call .mount true, .call .openFile true,
         .call .read true, .call .decode true,
         .set .CO2Gauge m.CO2, .set .HumidityGauge m.Humidity, .set .PM10Gauge m.PM10,
         .set .PM25Gauge m.PM25, .set .TempGauge m.Temp,
         .release .file w.fileClose, .release .share w.umount, .release .session w.logoff,
         .release .conn w.connClose]⟩

end PathDef

/-! ## The paths through `updateMetrics` -/

section Paths

variable {F : Type} (L : Lib F) (w : World) (g : Gauges F)

theorem updateMetrics_dial_failed (e : GoError) (h : w.dial = some e) :
    updateMetrics L w g = ⟨some e, g, [.call .dial false]⟩ := by
  simp [updateMetrics, h, Frame.call, Frame.ret]

theorem updateMetrics_authenticate_failed (e : GoError) (h1 : w.dial = none)
    (h : w.authenticate = some e) :
    updateMetrics L w g = ⟨some e, g,
      [.call .dial true, .call .authenticate false, .release .conn w.connClose]⟩ := by
  simp [updateMetrics, h1, h, Frame.call, Frame.ret, Frame.defer, World.teardown]

theorem updateMetrics_mount_failed (e : GoError) (h1 : w.dial = none)
    (h2 : w.authenticate = none) (h : w.mount = some e) :
    updateMetrics L w g = ⟨some e, g,
      [.call .dial true, .call .authenticate true, .call .mount false,
       .release .session w.logoff, .release .conn w.connClose]⟩ := by
  simp [updateMetrics, h1, h2, h, Frame.call, Frame.ret, Frame.defer, World.teardown]

theorem updateMetrics_openFile_failed (e : GoError) (h1 : w.dial = none)
    (h2 : w.authenticate = none) (h3 : w.mount = none) (h : w.openFile = some e) :
    updateMetrics L w g = ⟨some e, g,
      [.call .dial true, .call .authenticate true, .call .mount true, .call .openFile false,
       .release .share w.umount, .release .session w.logoff, .release .conn w.connClose]⟩ := by
  simp [updateMetrics, h1, h2, h3, h, Frame.call, Frame.ret, Frame.defer, World.teardown]

theorem updateMetrics_read_failed (e : GoError) (h1 : w.dial = none)
    (h2 : w.authenticate = none) (h3 : w.mount = none) (h4 : w.openFile = none)
    (h : w.read = .error e) :
    updateMetrics L w g = ⟨some e, g,
      [.call .dial true, .call .authenticate true, .call .mount true, .call .openFile true,
       .call .read false,
       .release .file w.fileClose, .release .share w.umount, .release .session w.logoff,
       .release .conn w.connClose]⟩ := by
  simp [updateMetrics, h1, h2, h3, h4, h, Frame.call, Frame.ret, Frame.defer, World.teardown]

theorem updateMetrics_decode_failed (data : Document) (e : JsonFault) (h1 : w.dial = none)
    (h2 : w.authenticate = none) (h3 : w.mount = none) (h4 : w.openFile = none)
    (h5 : w.read = .ok data) (h : Unmarshal L data = .error e) :
    updateMetrics L w g = ⟨some (.json e), g,
      [.call .dial true, .call .authenticate true, .call .mount true, .call .openFile true,
       .call .read true, .call .decode false,
       .release .file w.fileClose, .release .share w.umount, .release .session w.logoff,
       .release .conn w.connClose]⟩ := by
  simp [updateMetrics, h1, h2, h3, h4, h5, h, Frame.call, Frame.ret, Frame.defer,
    World.teardown]

theorem updateMetrics_empty (data : Document) (h1 : w.dial = none)
    (h2 : w.authenticate = none) (h3 : w.mount = none) (h4 : w.openFile = none)
    (h5 : w.read = .ok data) (h : Unmarshal L data = .ok []) :
    updateMetrics L w g = ⟨some emptyDataError, g,
      [.call .dial true, .call .authenticate true, .call .mount true, .call .openFile true,
       .call .read true, .call .decode true,
       .release .file w.fileClose, .release .share w.umount, .release .session w.logoff,
       .release .conn w.connClose]⟩ := by
  simp [updateMetrics, h1, h2, h3, h4, h5, h, Frame.call, Frame.ret, Frame.defer,
    World.teardown, emptyDataError]

theorem updateMetrics_succeeded (data : Document) (m : Measurement F)
    (rest : List (Measurement F)) (h1 : w.dial = none)
    (h2 : w.authenticate = none) (h3 : w.mount = none) (h4 : w.openFile = none)
    (h5 : w.read = .ok data) (h : Unmarshal L data = .ok (m :: rest)) :
    updateMetrics L w g = ⟨none, Gauges.ofMeasurement m,
      [.call .dial true, .call .authenticate true, .call .mount true, .call .openFile true,
       .call .read true, .call .decode true,
       .set .CO2Gauge m.CO2, .set .HumidityGauge m.Humidity, .set .PM10Gauge m.PM10,
       .set .PM25Gauge m.PM25, .set .TempGauge m.Temp,
       .release .file w.fileClose, .release .share w.umount, .release .session w.logoff,
       .release .conn w.connClose]⟩ := by
  simp [updateMetrics, h1, h2, h3, h4, h5, h, Frame.call, Frame.ret, Frame.defer,
    Frame.set, Gauges.Set, Gauges.ofMeasurement, World.teardown]

theorem updateMetrics_path : Path L w g (updateMetrics L w g) := by
  cases h1 : w.dial with
  | some e => rw [updateMetrics_dial_failed L w g e h1]; exact .dial e h1
  | none =>
  cases h2 : w.authenticate with
  | some e => rw [updateMetrics_authenticate_failed L w g e h1 h2]; exact .authenticate e h1 h2
  | none =>
  cases h3 : w.mount with
  | some e => rw [updateMetrics_mount_failed L w g e h1 h2 h3]; exact .mount e h1 h2 h3
  | none =>
  cases h4 : w.openFile with
  | some e =>
    rw [updateMetrics_openFile_failed L w g e h1 h2 h3 h4]; exact .openFile e h1 h2 h3 h4
  | none =>
  cases h5 : w.read with
  | error e => rw [updateMetrics_read_failed L w g e h1 h2 h3 h4 h5]; exact .read e h1 h2 h3 h4 h5
  | ok data =>
  cases h6 : Unmarshal L data with
  | error e =>
    rw [updateMetrics_decode_failed L w g data e h1 h2 h3 h4 h5 h6]
    exact .decode data e h1 h2 h3 h4 h5 h6
  | ok ms =>
  cases ms with
  | nil =>
    rw [updateMetrics_empty L w g data h1 h2 h3 h4 h5 h6]
    exact .empty data h1 h2 h3 h4 h5 h6
  | cons m rest =>
    rw [updateMetrics_succeeded L w g data m rest h1 h2 h3 h4 h5 h6]
    exact .succeeded data m rest h1 h2 h3 h4 h5 h6

end Paths

/-! ## Decoding lemmas -/

section Decoding

variable {F : Type} (L : Lib F)

theorem saveError_ne_none (saved : Option JsonFault) (e : JsonFault) :
    saveError saved e ≠ none := by
  cases saved <;> simp [saveError]

theorem fieldByKey_tag (f : Field) : fieldByKey f.tag = some f := by
  cases f <;> rfl

theorem Measurement.get_put (m : Measurement F) (f f2 : Field) (x : F) :
    (m.put f x).get f2 = if f = f2 then x else m.get f2 := by
  cases f <;> cases f2 <;> rfl

/-! ### One step of each decoding loop -/

theorem objectMeasurement_skip (key : String) (val : Json) (rest : List (String × Json))
    (m : Measurement F) (saved : Option JsonFault) (hk : fieldByKey key = none) :
    objectMeasurement L ((key, val) :: rest) m saved = objectMeasurement L rest m saved := by
  simp [objectMeasurement, hk]

theorem objectMeasurement_abort (key : String) (val : Json) (rest : List (String × Json))
    (m : Measurement F) (saved : Option JsonFault) (f : Field) (e : JsonFault)
    (hk : fieldByKey key = some f) (hr : decodeField L val (m.get f) saved = .error e) :
    objectMeasurement L ((key, val) :: rest) m saved = .error e := by
  simp [objectMeasurement, hk, hr]

theorem objectMeasurement_store (key : String) (val : Json) (rest : List (String × Json))
    (m : Measurement F) (saved : Option JsonFault) (f : Field) (x : F)
    (saved1 : Option JsonFault)
    (hk : fieldByKey key = some f) (hr : decodeField L val (m.get f) saved = .ok (x, saved1)) :
    objectMeasurement L ((key, val) :: rest) m saved
      = objectMeasurement L rest (m.put f x) saved1 := by
  simp [objectMeasurement, hk, hr]

theorem arrayMeasurements_abort (x : Json) (xs : List Json) (saved : Option JsonFault)
    (e : JsonFault) (hr : valueMeasurement L x (Measurement.zero L) saved = .error e) :
    arrayMeasurements L (x :: xs) saved = .error e := by
  simp [arrayMeasurements, hr]

theorem arrayMeasurements_abort_later (x : Json) (xs : List Json) (saved : Option JsonFault)
    (m : Measurement F) (saved1 : Option JsonFault) (e : JsonFault)
    (hr : valueMeasurement L x (Measurement.zero L) saved = .ok (m, saved1))
    (hr2 : arrayMeasurements L xs saved1 = .error e) :
    arrayMeasurements L (x :: xs) saved = .error e := by
  simp [arrayMeasurements, hr, hr2]

theorem arrayMeasurements_append (x : Json) (xs : List Json) (saved : Option JsonFault)
    (m : Measurement F) (saved1 : Option JsonFault) (ms : List (Measurement F))
    (saved2 : Option JsonFault)
    (hr : valueMeasurement L x (Measurement.zero L) saved = .ok (m, saved1))
    (hr2 : arrayMeasurements L xs saved1 = .ok (ms, saved2)) :
    arrayMeasurements L (x :: xs) saved = .ok (m :: ms, saved2) := by
  simp [arrayMeasurements, hr, hr2]

theorem objectMeasurements_skip (key : String) (val : Json) (rest : List (String × Json))
    (ms : List (Measurement F)) (saved : Option JsonFault)
    (hk : matchesName "measurements" key = false) :
    objectMeasurements L ((key, val) :: rest) ms saved = objectMeasurements L rest ms saved := by
  simp [objectMeasurements, hk]

theorem objectMeasurements_abort (key : String) (val : Json) (rest : List (String × Json))
    (ms : List (Measurement F)) (saved : Option JsonFault) (e : JsonFault)
    (hk : matchesName "measurements" key = true) (hr : valueSlice L val ms saved = .error e) :
    objectMeasurements L ((key, val) :: rest) ms saved = .error e := by
  simp [objectMeasurements, hk, hr]

theorem objectMeasurements_store (key : String) (val : Json) (rest : List (String × Json))
    (ms : List (Measurement F)) (saved : Option JsonFault) (ms1 : List (Measurement F))
    (saved1 : Option JsonFault)
    (hk : matchesName "measurements" key = true)
    (hr : valueSlice L val ms saved = .ok (ms1, saved1)) :
    objectMeasurements L ((key, val) :: rest) ms saved
      = objectMeasurements L rest ms1 saved1 := by
  simp [objectMeasurements, hk, hr]

/-! ### A saved error is never cleared -/

/-- A string strconv.ParseFloat refuses, other than the text null, is never stored. -/
theorem literalStoreFloat_refused (s : String) (v : F) (saved : Option JsonFault)
    (hnum : L.ParseFloat s = none) (hnull : s ≠ "null") :
    Faulted (literalStoreFloat L s v saved) := by
  unfold literalStoreFloat
  split
  · exact saveError_ne_none _ _
  · split_ifs <;>
      first
        | exact saveError_ne_none _ _
        | trivial
        | (simp only [hnum]; exact saveError_ne_none _ _)

theorem literalStoreFloat_sticky (s : String) (v : F) (saved : Option JsonFault)
    (h : saved ≠ none) : Faulted (literalStoreFloat L s v saved) := by
  unfold literalStoreFloat
  split
  · exact saveError_ne_none _ _
  · split_ifs <;>
      first
        | exact saveError_ne_none _ _
        | trivial
        | exact h
        | (split <;> first | exact saveError_ne_none _ _ | exact h)

theorem decodeField_sticky (val : Json) (v : F) (saved : Option JsonFault)
    (h : saved ≠ none) : Faulted (decodeField L val v saved) := by
  cases val <;> simp only [decodeField, Faulted] <;>
    first
      | exact h
      | exact saveError_ne_none _ _
      | exact literalStoreFloat_sticky L _ v saved h

theorem objectMeasurement_sticky (fields : List (String × Json)) (m : Measurement F)
    (saved : Option JsonFault) (h : saved ≠ none) :
    Faulted (objectMeasurement L fields m saved) := by
  induction fields generalizing m saved with
  | nil => exact h
  | cons kv rest ih =>
    obtain ⟨key, val⟩ := kv
    cases hk : fieldByKey key with
    | none => rw [objectMeasurement_skip L key val rest m saved hk]; exact ih m saved h
    | some f =>
      have hd := decodeField_sticky L val (m.get f) saved h
      cases hr : decodeField L val (m.get f) saved with
      | error e => rw [objectMeasurement_abort L key val rest m saved f e hk hr]; trivial
      | ok p =>
        obtain ⟨x, saved1⟩ := p
        rw [hr] at hd
        rw [objectMeasurement_store L key val rest m saved f x saved1 hk hr]
        exact ih _ saved1 hd

theorem valueMeasurement_sticky (j : Json) (m : Measurement F)
    (saved : Option JsonFault) (h : saved ≠ none) :
    Faulted (valueMeasurement L j m saved) := by
  cases j <;> simp only [valueMeasurement, Faulted] <;>
    first
      | exact h
      | exact saveError_ne_none _ _
      | exact objectMeasurement_sticky L _ m saved h

theorem arrayMeasurements_sticky (elems : List Json) (saved : Option JsonFault)
    (h : saved ≠ none) : Faulted (arrayMeasurements L elems saved) := by
  induction elems generalizing saved with
  | nil => exact h
  | cons x xs ih =>
    have hd := valueMeasurement_sticky L x (Measurement.zero L) saved h
    cases hr : valueMeasurement L x (Measurement.zero L) saved with
    | error e => rw [arrayMeasurements_abort L x xs saved e hr]; trivial
    | ok p =>
      obtain ⟨m, saved1⟩ := p
      rw [hr] at hd
      have h2 := ih saved1 hd
      cases hr2 : arrayMeasurements L xs saved1 with
      | error e => rw [arrayMeasurements_abort_later L x xs saved m saved1 e hr hr2]; trivial
      | ok q =>
        obtain ⟨ms, saved2⟩ := q
        rw [hr2] at h2
        rw [arrayMeasurements_append L x xs saved m saved1 ms saved2 hr hr2]
        exact h2

theorem valueSlice_sticky (val : Json) (ms : List (Measurement F))
    (saved : Option JsonFault) (h : saved ≠ none) :
    Faulted (valueSlice L val ms saved) := by
  cases val <;> simp only [valueSlice, Faulted] <;>
    first
      | exact h
      | exact saveError_ne_none _ _
      | exact arrayMeasurements_sticky L _ saved h

theorem objectMeasurements_sticky (members : List (String × Json))
    (ms : List (Measurement F)) (saved : Option JsonFault) (h : saved ≠ none) :
    Faulted (objectMeasurements L members ms saved) := by
  induction members generalizing ms saved with
  | nil => exact h
  | cons kv rest ih =>
    obtain ⟨key, val⟩ := kv
    cases hk : matchesName "measurements" key with
    | false => rw [objectMeasurements_skip L key val rest ms saved hk]; exact ih ms saved h
    | true =>
      have hd := valueSlice_sticky L val ms saved h
      cases hr : valueSlice L val ms saved with
      | error e => rw [objectMeasurements_abort L key val rest ms saved e hk hr]; trivial
      | ok p =>
        obtain ⟨ms1, saved1⟩ := p
        rw [hr] at hd
        rw [objectMeasurements_store L key val rest ms saved ms1 saved1 hk hr]
        exact ih ms1 saved1 hd

/-! ### A refused string faults the whole document -/

theorem objectMeasurement_refused (fields : List (String × Json)) (m : Measurement F)
    (saved : Option JsonFault) (f : Field) (s : String)
    (hmem : (f.tag, Json.string s) ∈ fields)
    (hnum : L.ParseFloat s = none) (hnull : s ≠ "null") :
    Faulted (objectMeasurement L fields m saved) := by
  induction fields generalizing m saved with
  | nil => simp at hmem
  | cons kv rest ih =>
    obtain ⟨key, val⟩ := kv
    rcases List.mem_cons.mp hmem with heq | htail
    · obtain ⟨rfl, rfl⟩ := Prod.mk.inj heq
      have hk := fieldByKey_tag f
      have hd : Faulted (decodeField L (Json.string s) (m.get f) saved) :=
        literalStoreFloat_refused L s _ saved hnum hnull
      cases hr : decodeField L (Json.string s) (m.get f) saved with
      | error e => rw [objectMeasurement_abort L _ _ rest m saved f e hk hr]; trivial
      | ok p =>
        obtain ⟨x, saved1⟩ := p
        rw [hr] at hd
        rw [objectMeasurement_store L _ _ rest m saved f x saved1 hk hr]
        exact objectMeasurement_sticky L rest _ saved1 hd
    · cases hk : fieldByKey key with
      | none => rw [objectMeasurement_skip L key val rest m saved hk]; exact ih m saved htail
      | some f2 =>
        cases hr : decodeField L val (m.get f2) saved with
        | error e => rw [objectMeasurement_abort L key val rest m saved f2 e hk hr]; trivial
        | ok p =>
          obtain ⟨x, saved1⟩ := p
          rw [objectMeasurement_store L key val rest m saved f2 x saved1 hk hr]
          exact ih _ saved1 htail

theorem arrayMeasurements_refused (elems : List Json) (saved : Option JsonFault)
    (fields : List (String × Json)) (f : Field) (s : String)
    (hobj : Json.object fields ∈ elems) (hmem : (f.tag, Json.string s) ∈ fields)
    (hnum : L.ParseFloat s = none) (hnull : s ≠ "null") :
    Faulted (arrayMeasurements L elems saved) := by
  induction elems generalizing saved with
  | nil => simp at hobj
  | cons x xs ih =>
    cases hr : valueMeasurement L x (Measurement.zero L) saved with
    | error e => rw [arrayMeasurements_abort L x xs saved e hr]; trivial
    | ok p =>
      obtain ⟨m, saved1⟩ := p
      have h2 : Faulted (arrayMeasurements L xs saved1) := by
        rcases List.mem_cons.mp hobj with heq | htail
        · subst heq
          have hd : Faulted (valueMeasurement L (Json.object fields) (Measurement.zero L) saved) :=
            objectMeasurement_refused L fields _ saved f s hmem hnum hnull
          rw [hr] at hd
          exact arrayMeasurements_sticky L xs saved1 hd
        · exact ih saved1 htail
      cases hr2 : arrayMeasurements L xs saved1 with
      | error e => rw [arrayMeasurements_abort_later L x xs saved m saved1 e hr hr2]; trivial
      | ok q =>
        obtain ⟨ms, saved2⟩ := q
        rw [hr2] at h2
        rw [arrayMeasurements_append L x xs saved m saved1 ms saved2 hr hr2]
        exact h2

theorem objectMeasurements_refused (members : List (String × Json))
    (ms : List (Measurement F)) (saved : Option JsonFault)
    (elems : List Json) (fields : List (String × Json)) (f : Field) (s : String)
    (harr : ("measurements", Json.array elems) ∈ members)
    (hobj : Json.object fields ∈ elems) (hmem : (f.tag, Json.string s) ∈ fields)
    (hnum : L.ParseFloat s = none) (hnull : s ≠ "null") :
    Faulted (objectMeasurements L members ms saved) := by
  induction members generalizing ms saved with
  | nil => simp at harr
  | cons kv rest ih =>
    obtain ⟨key, val⟩ := kv
    rcases List.mem_cons.mp harr with heq | htail
    · obtain ⟨rfl, rfl⟩ := Prod.mk.inj heq
      have hk : matchesName "measurements" "measurements" = true := by decide
      have hd : Faulted (valueSlice L (Json.array elems) ms saved) :=
        arrayMeasurements_refused L elems saved fields f s hobj hmem hnum hnull
      cases hr : valueSlice L (Json.array elems) ms saved with
      | error e => rw [objectMeasurements_abort L _ _ rest ms saved e hk hr]; trivial
      | ok p =>
        obtain ⟨ms1, saved1⟩ := p
        rw [hr] at hd
        rw [objectMeasurements_store L _ _ rest ms saved ms1 saved1 hk hr]
        exact objectMeasurements_sticky L rest ms1 saved1 hd
    · cases hk : matchesName "measurements" key with
      | false =>
        rw [objectMeasurements_skip L key val rest ms saved hk]; exact ih ms saved htail
      | true =>
        cases hr : valueSlice L val ms saved with
        | error e => rw [objectMeasurements_abort L key val rest ms saved e hk hr]; trivial
        | ok p =>
          obtain ⟨ms1, saved1⟩ := p
          rw [objectMeasurements_store L key val rest ms saved ms1 saved1 hk hr]
          exact ih ms1 saved1 htail

/-- A faulted decoding of the document makes json.Unmarshal return an error. -/
theorem Unmarshal_of_faulted (j : Json) (h : Faulted (valueMeasurements L j)) :
    ∃ e, Unmarshal L (.valid j) = .error e := by
  cases hr : valueMeasurements L j with
  | error e => exact ⟨e, by simp [Unmarshal, hr]⟩
  | ok p =>
    obtain ⟨ms, saved⟩ := p
    rw [hr] at h
    cases saved with
    | none => exact absurd rfl h
    | some e => exact ⟨e, by simp [Unmarshal, hr]⟩

/-! ### Missing fields are not errors -/

/-- The text null in a string-tagged field is taken as JSON null: nothing is stored
and nothing is reported. -/
theorem literalStoreFloat_null (v : F) (saved : Option JsonFault) :
    literalStoreFloat L "null" v saved = .ok (v, saved) := by
  simp [literalStoreFloat]

theorem literalStoreFloat_numeric (s : String) (v : F) (saved : Option JsonFault)
    (h : Numeric L s = true) :
    ∃ x, L.ParseFloat s = some x ∧ literalStoreFloat L s v saved = .ok (x, saved) := by
  unfold Numeric startsLikeNumber at h
  unfold literalStoreFloat
  cases hs : s.data with
  | nil => simp [hs] at h
  | cons c rest =>
    simp only [hs, Bool.and_eq_true, Bool.or_eq_true, decide_eq_true_eq,
      Option.isSome_iff_exists] at h
    obtain ⟨hc, x, hx⟩ := h
    refine ⟨x, hx, ?_⟩
    have h1 : c ≠ 'n' := by
      rintro rfl
      rcases hc with hc | hc
      · exact absurd hc (by decide)
      · exact absurd hc.2 (by decide)
    have h2 : ¬ (c = 't' ∨ c = 'f') := by
      rintro (rfl | rfl) <;> rcases hc with hc | hc
      · exact absurd hc (by decide)
      · exact absurd hc.2 (by decide)
      · exact absurd hc (by decide)
      · exact absurd hc.2 (by decide)
    have h3 : c.toNat ≠ 34 := by
      intro h34
      rcases hc with hc | hc
      · rw [hc] at h34
        exact absurd h34 (by decide)
      · omega
    have h4 : ¬ (c ≠ '-' ∧ (c.toNat < 48 ∨ 57 < c.toNat)) := by
      rintro ⟨hm, hr⟩
      rcases hc with hc | hc
      · exact hm hc
      · omega
    simp only [h1, h2, h3, h4, if_false, hx]

theorem objectMeasurement_numeric (fields : List (String × Json)) (m : Measurement F)
    (saved : Option JsonFault) (h : NumericFields L fields) :
    ∃ m2, objectMeasurement L fields m saved = .ok (m2, saved) ∧
      ∀ f, Lacks fields f → m2.get f = m.get f := by
  induction fields generalizing m with
  | nil => exact ⟨m, rfl, fun _ _ => rfl⟩
  | cons kv rest ih =>
    obtain ⟨key, val⟩ := kv
    have hrest : NumericFields L rest := fun k v hm hk =>
      h k v (List.mem_cons_of_mem _ hm) hk
    cases hk : fieldByKey key with
    | none =>
      obtain ⟨m2, h2, h3⟩ := ih m hrest
      refine ⟨m2, by rw [objectMeasurement_skip L key val rest m saved hk]; exact h2, ?_⟩
      intro f hf
      exact h3 f (fun k v hm => hf k v (List.mem_cons_of_mem _ hm))
    | some f0 =>
      obtain ⟨s, rfl, hs⟩ := h key val (List.mem_cons_self _ _) (by simp [hk])
      obtain ⟨x, _, hx⟩ := literalStoreFloat_numeric L s (m.get f0) saved hs
      have hr : decodeField L (Json.string s) (m.get f0) saved = .ok (x, saved) := hx
      obtain ⟨m2, h2, h3⟩ := ih (m.put f0 x) hrest
      refine ⟨m2, ?_, ?_⟩
      · rw [objectMeasurement_store L key _ rest m saved f0 x saved hk hr]; exact h2
      · intro f hf
        rw [h3 f (fun k v hm => hf k v (List.mem_cons_of_mem _ hm)), Measurement.get_put]
        have hne : f0 ≠ f := by
          intro heq
          exact hf key _ (List.mem_cons_self _ _) (by rw [hk, heq])
        simp [hne]

theorem arrayMeasurements_numeric (elems : List Json) (saved : Option JsonFault)
    (h : ∀ j ∈ elems, ∃ fields, j = Json.object fields ∧ NumericFields L fields) :
    ∃ ms : List (Measurement F), arrayMeasurements L elems saved = .ok (ms, saved) ∧
      ms.length = elems.length := by
  induction elems with
  | nil => exact ⟨[], rfl, rfl⟩
  | cons x xs ih =>
    obtain ⟨fields, rfl, hf⟩ := h x (List.mem_cons_self _ _)
    obtain ⟨m, hm, _⟩ := objectMeasurement_numeric L fields (Measurement.zero L) saved hf
    have hr : valueMeasurement L (Json.object fields) (Measurement.zero L) saved
        = .ok (m, saved) := hm
    obtain ⟨ms, hms, hlen⟩ := ih (fun j hj => h j (List.mem_cons_of_mem _ hj))
    exact ⟨m :: ms, arrayMeasurements_append L _ xs saved m saved ms saved hr hms, by simp [hlen]⟩

theorem objectMeasurements_unmatched (members : List (String × Json))
    (ms : List (Measurement F)) (saved : Option JsonFault)
    (h : ∀ key val, (key, val) ∈ members → matchesName "measurements" key = false) :
    objectMeasurements L members ms saved = .ok (ms, saved) := by
  induction members with
  | nil => rfl
  | cons kv rest ih =>
    obtain ⟨key, val⟩ := kv
    rw [objectMeasurements_skip L key val rest ms saved (h key val (List.mem_cons_self _ _))]
    exact ih (fun k v hm => h k v (List.mem_cons_of_mem _ hm))

end Decoding

/-! ## Sequences of refreshes -/

theorem refreshAll_append {F : Type} (L : Lib F) (ws : List World) (w : World)
    (g : Gauges F) :
    refreshAll L (ws ++ [w]) g = (updateMetrics L w (refreshAll L ws g)).gauges := by
  induction ws generalizing g with
  | nil => simp [refreshAll]
  | cons a ws ih => simp [refreshAll, ih]

/-! ## C1: a successful refresh exports element 0 -/

/-- C1: when dial, authenticate, mount, open and read succeed and the document decodes
to a non-empty array, updateMetrics returns no error and the gauges co2_ppm, humidity,
pm10, pm25 and temp hold the CO2, Humidity, PM10, PM25 and Temp fields of element 0,
whatever the prior gauges and the later elements are. -/
theorem updateMetrics_exports_first_element {F : Type} (L : Lib F) (w : World)
    (g : Gauges F) (data : Document) (m : Measurement F) (rest : List (Measurement F))
    (hdial : w.dial = none) (hauth : w.authenticate = none) (hmount : w.mount = none)
    (hopen : w.openFile = none) (hread : w.read = .ok data)
    (hdecode : Unmarshal L data = .ok (m :: rest)) :
    (updateMetrics L w g).err = none ∧
    (updateMetrics L w g).gauges.co2_ppm = m.CO2 ∧
    (updateMetrics L w g).gauges.humidity = m.Humidity ∧
    (updateMetrics L w g).gauges.pm10 = m.PM10 ∧
    (updateMetrics L w g).gauges.pm25 = m.PM25 ∧
    (updateMetrics L w g).gauges.temp = m.Temp := by
  rw [updateMetrics_succeeded L w g data m rest hdial hauth hmount hopen hread hdecode]
  simp [Gauges.ofMeasurement]

/-- C1 on the two-element example document: the gauges become the float64 values
412.5, 45.2, 3.1, 1.8 and 21.4 (as bit patterns) and the second element is ignored. -/
theorem updateMetrics_exports_first_element_example :
    (updateMetrics exampleLib (deviceServing exampleDocument) freshGauges).err = none ∧
    (updateMetrics exampleLib (deviceServing exampleDocument) freshGauges).gauges.co2_ppm
      = 0x4079C80000000000 ∧
    (updateMetrics exampleLib (deviceServing exampleDocument) freshGauges).gauges.humidity
      = 0x404699999999999A ∧
    (updateMetrics exampleLib (deviceServing exampleDocument) freshGauges).gauges.pm10
      = 0x4008CCCCCCCCCCCD ∧
    (updateMetrics exampleLib (deviceServing exampleDocument) freshGauges).gauges.pm25
      = 0x3FFCCCCCCCCCCCCD ∧
    (updateMetrics exampleLib (deviceServing exampleDocument) freshGauges).gauges.temp
      = 0x4035666666666666 :=
  updateMetrics_exports_first_element exampleLib (deviceServing exampleDocument) freshGauges
    exampleDocument
    ⟨0x4079C80000000000, 0x404699999999999A, 0x4008CCCCCCCCCCCD, 0x3FFCCCCCCCCCCCCD,
      0x4035666666666666⟩
    [⟨0x408F380000000000, 0x4049000000000000, 0x4022000000000000, 0x4022000000000000,
      0x4022000000000000⟩]
    rfl rfl rfl rfl rfl rfl

/-! ## C2: a failed refresh leaves the gauges alone -/

/-- C2: whenever updateMetrics returns an error, whichever step it comes from, the five
gauges hold the values they had before the call and no Set was called on any gauge. -/
theorem updateMetrics_error_keeps_gauges {F : Type} (L : Lib F) (w : World)
    (g : Gauges F) (e : GoError) (h : (updateMetrics L w g).err = some e) :
    (updateMetrics L w g).gauges = g ∧ setsOf (updateMetrics L w g).trace = [] := by
  have hp := updateMetrics_path L w g
  revert h
  generalize updateMetrics L w g = r at hp
  cases hp <;> simp [setsOf]

/-- C2 on a device whose share cannot be mounted, with gauges set by an earlier refresh. -/
theorem updateMetrics_error_keeps_gauges_example :
    (updateMetrics exampleLib
        ⟨none, none, some (.device "mount failed"), none, .ok exampleDocument,
          none, none, none, none⟩ ⟨1, 2, 3, 4, 5⟩).gauges = ⟨1, 2, 3, 4, 5⟩ ∧
    setsOf (updateMetrics exampleLib
        ⟨none, none, some (.device "mount failed"), none, .ok exampleDocument,
          none, none, none, none⟩ ⟨1, 2, 3, 4, 5⟩).trace = [] :=
  updateMetrics_error_keeps_gauges exampleLib
    ⟨none, none, some (.device "mount failed"), none, .ok exampleDocument,
      none, none, none, none⟩ ⟨1, 2, 3, 4, 5⟩ (.device "mount failed") rfl

/-! ## C3: the empty measurement array -/

/-- C3: when the session succeeds and the document decodes without error to an empty
measurement array, updateMetrics returns the empty-data error and leaves the gauges
unchanged; and on no device whose document fails to decode does updateMetrics return
that error value. -/
theorem updateMetrics_empty_array {F : Type} (L : Lib F) (w : World)
    (g : Gauges F) (data : Document)
    (hdial : w.dial = none) (hauth : w.authenticate = none) (hmount : w.mount = none)
    (hopen : w.openFile = none) (hread : w.read = .ok data)
    (hdecode : Unmarshal L data = .ok []) :
    (updateMetrics L w g).err = some (.errorString "sensor returned invalid data") ∧
    (updateMetrics L w g).gauges = g ∧
    setsOf (updateMetrics L w g).trace = [] ∧
    ∀ (w2 : World) (g2 : Gauges F) (data2 : Document) (e : JsonFault),
      w2.dial = none → w2.authenticate = none → w2.mount = none → w2.openFile = none →
      w2.read = .ok data2 → Unmarshal L data2 = .error e →
      (updateMetrics L w2 g2).err = some (.json e) ∧
      (updateMetrics L w2 g2).err ≠ (updateMetrics L w g).err := by
  rw [updateMetrics_empty L w g data hdial hauth hmount hopen hread hdecode]
  refine ⟨rfl, rfl, by simp [setsOf], ?_⟩
  intro w2 g2 data2 e k1 k2 k3 k4 k5 k6
  rw [updateMetrics_decode_failed L w2 g2 data2 e k1 k2 k3 k4 k5 k6]
  simp [emptyDataError]

/-- C3 on the document whose measurement array is empty. -/
theorem updateMetrics_empty_array_example :
    (updateMetrics exampleLib (deviceServing emptyDocument) ⟨1, 2, 3, 4, 5⟩).err
      = some (.errorString "sensor returned invalid data") ∧
    (updateMetrics exampleLib (deviceServing emptyDocument) ⟨1, 2, 3, 4, 5⟩).gauges
      = ⟨1, 2, 3, 4, 5⟩ :=
  have h := updateMetrics_empty_array exampleLib (deviceServing emptyDocument)
    ⟨1, 2, 3, 4, 5⟩ emptyDocument rfl rfl rfl rfl rfl rfl
  ⟨h.1, h.2.1⟩

/-! ## C4: a field that is not a number -/

/-- C4 (amended): when the document is an object whose measurements array holds, at
index 0 or later, an object in which one of the five fields is a string that
strconv.ParseFloat refuses and that is not the text null, updateMetrics returns a
decode error (neither nil nor the empty-data error), calls Set on no gauge and leaves
the gauges unchanged; the text null itself is taken as JSON null and stores nothing. -/
theorem updateMetrics_refuses_non_numeric {F : Type} (L : Lib F) (w : World)
    (g : Gauges F) (members : List (String × Json)) (elems : List Json)
    (fields : List (String × Json)) (f : Field) (s : String)
    (hdial : w.dial = none) (hauth : w.authenticate = none) (hmount : w.mount = none)
    (hopen : w.openFile = none) (hread : w.read = .ok (.valid (.object members)))
    (harr : ("measurements", Json.array elems) ∈ members)
    (hobj : Json.object fields ∈ elems)
    (hfield : (f.tag, Json.string s) ∈ fields)
    (hnum : L.ParseFloat s = none) (hnull : s ≠ "null") :
    (∃ e, Unmarshal L (.valid (.object members)) = .error e ∧
      (updateMetrics L w g).err = some (.json e)) ∧
    (updateMetrics L w g).err ≠ none ∧
    (updateMetrics L w g).err ≠ some (.errorString "sensor returned invalid data") ∧
    (updateMetrics L w g).gauges = g ∧
    setsOf (updateMetrics L w g).trace = [] ∧
    ∀ (v : F) (saved : Option JsonFault),
      decodeField L (.string "null") v saved = .ok (v, saved) := by
  have hf : Faulted (valueMeasurements L (Json.object members)) :=
    objectMeasurements_refused L members [] none elems fields f s harr hobj hfield hnum hnull
  obtain ⟨e, he⟩ := Unmarshal_of_faulted L _ hf
  rw [updateMetrics_decode_failed L w g _ e hdial hauth hmount hopen hread he]
  exact ⟨⟨e, he, rfl⟩, by simp, by simp, rfl, by simp [setsOf],
    fun v saved => literalStoreFloat_null L v saved⟩

/-- C4 (amended) on a document whose second element has a pm25 field that is not a
number: the refresh fails although element 0 is fine. -/
theorem updateMetrics_refuses_non_numeric_example :
    (updateMetrics exampleLib (deviceServing (.valid (.object [("measurements", .array [
        measurementObject "412.5" "45.2" "3.1" "1.8" "21.4",
        measurementObject "999" "50" "9" "n/a" "9"])]))) ⟨1, 2, 3, 4, 5⟩).err ≠ none ∧
    (updateMetrics exampleLib (deviceServing (.valid (.object [("measurements", .array [
        measurementObject "412.5" "45.2" "3.1" "1.8" "21.4",
        measurementObject "999" "50" "9" "n/a" "9"])]))) ⟨1, 2, 3, 4, 5⟩).gauges
      = ⟨1, 2, 3, 4, 5⟩ :=
  have h := updateMetrics_refuses_non_numeric exampleLib
    (deviceServing (.valid (.object [("measurements", .array [
        measurementObject "412.5" "45.2" "3.1" "1.8" "21.4",
        measurementObject "999" "50" "9" "n/a" "9"])]))) ⟨1, 2, 3, 4, 5⟩
    [("measurements", .array [
        measurementObject "412.5" "45.2" "3.1" "1.8" "21.4",
        measurementObject "999" "50" "9" "n/a" "9"])]
    [measurementObject "412.5" "45.2" "3.1" "1.8" "21.4",
      measurementObject "999" "50" "9" "n/a" "9"]
    [("co2_ppm", .string "999"), ("humidity_RH", .string "50"),
      ("pm10_ugm3", .string "9"), ("pm25_ugm3", .string "n/a"), ("temperature_C", .string "9")]
    .PM25 "n/a" rfl rfl rfl rfl rfl
    (by simp) (by simp [measurementObject]) (by simp [Field.tag]) rfl (by decide)
  ⟨h.2.1, h.2.2.2.1⟩

/-- C4 as stated fails: a co2_ppm field holding the text null is a string that is not
a number (strconv.ParseFloat refuses it), yet the refresh succeeds and sets the co2_ppm
gauge to the zero value. -/
theorem updateMetrics_accepts_null_string :
    exampleLib.ParseFloat "null" = none ∧
    (updateMetrics exampleLib (deviceServing (.valid (.object [("measurements", .array [
        measurementObject "null" "45.2" "3.1" "1.8" "21.4"])]))) ⟨1, 2, 3, 4, 5⟩).err = none ∧
    (updateMetrics exampleLib (deviceServing (.valid (.object [("measurements", .array [
        measurementObject "null" "45.2" "3.1" "1.8" "21.4"])]))) ⟨1, 2, 3, 4, 5⟩).gauges
      = ⟨0, 0x404699999999999A, 0x4008CCCCCCCCCCCD, 0x3FFCCCCCCCCCCCCD,
          0x4035666666666666⟩ := by
  refine ⟨rfl, rfl, rfl⟩

/-! ## C5: a missing field -/

/-- C5 (amended): a missing field is not a decode error. When the document is an object
with the single member measurements, an array of objects in which every member that is
decoded into a field holds a numeric string, updateMetrics returns no error whichever
of the five fields are missing, and a field missing from element 0 is exported as the
float64 zero value; and when no member of the document object matches measurements,
updateMetrics returns the empty-data error, which is not a decode error, and leaves the
gauges unchanged. -/
theorem updateMetrics_missing_field {F : Type} (L : Lib F) (w : World)
    (g : Gauges F) (fields : List (String × Json)) (others : List Json) (absent : Field)
    (hdial : w.dial = none) (hauth : w.authenticate = none) (hmount : w.mount = none)
    (hopen : w.openFile = none)
    (hread : w.read
      = .ok (.valid (.object [("measurements", .array (.object fields :: others))])))
    (hfields : NumericFields L fields)
    (hothers : ∀ j ∈ others, ∃ fs, j = Json.object fs ∧ NumericFields L fs)
    (habsent : Lacks fields absent) :
    (updateMetrics L w g).err = none ∧
    (∃ m rest,
      Unmarshal L (.valid (.object [("measurements", .array (.object fields :: others))]))
        = .ok (m :: rest) ∧
      m.get absent = L.zero ∧
      (updateMetrics L w g).gauges = Gauges.ofMeasurement m) ∧
    ∀ (w2 : World) (g2 : Gauges F) (members : List (String × Json)),
      w2.dial = none → w2.authenticate = none → w2.mount = none → w2.openFile = none →
      w2.read = .ok (.valid (.object members)) →
      (∀ key val, (key, val) ∈ members → matchesName "measurements" key = false) →
      (updateMetrics L w2 g2).err = some (.errorString "sensor returned invalid data") ∧
      (updateMetrics L w2 g2).gauges = g2 := by
  obtain ⟨m, hm, hget⟩ := objectMeasurement_numeric L fields (Measurement.zero L) none hfields
  have hr : valueMeasurement L (Json.object fields) (Measurement.zero L) none
      = .ok (m, none) := hm
  obtain ⟨ms, hms, _⟩ := arrayMeasurements_numeric L others none hothers
  have harr := arrayMeasurements_append L _ others none m none ms none hr hms
  have hdec :
      Unmarshal L (.valid (.object [("measurements", .array (.object fields :: others))]))
        = .ok (m :: ms) := by
    have hk : matchesName "measurements" "measurements" = true := by decide
    simp [Unmarshal, valueMeasurements, objectMeasurements, hk, valueSlice, harr]
  have hzero : m.get absent = L.zero := by
    rw [hget absent habsent]
    cases absent <;> rfl
  refine ⟨?_, ⟨m, ms, hdec, hzero, ?_⟩, ?_⟩
  · rw [updateMetrics_succeeded L w g _ m ms hdial hauth hmount hopen hread hdec]
  · rw [updateMetrics_succeeded L w g _ m ms hdial hauth hmount hopen hread hdec]
  · intro w2 g2 members k1 k2 k3 k4 k5 hno
    have hd2 : Unmarshal L (.valid (.object members)) = (.ok [] : Except JsonFault (List (Measurement F))) := by
      simp [Unmarshal, valueMeasurements, objectMeasurements_unmatched L members [] none hno]
    rw [updateMetrics_empty L w2 g2 _ k1 k2 k3 k4 k5 hd2]
    exact ⟨rfl, rfl⟩

/-- C5 (amended) on a document whose only measurement object has no temperature_C
member: the refresh succeeds. -/
theorem updateMetrics_missing_field_example :
    (updateMetrics exampleLib (deviceServing (.valid (.object [("measurements", .array [
        .object [("co2_ppm", .string "412.5"), ("humidity_RH", .string "45.2"),
          ("pm10_ugm3", .string "3.1"), ("pm25_ugm3", .string "1.8")]])])))
      ⟨1, 2, 3, 4, 5⟩).err = none :=
  (updateMetrics_missing_field exampleLib
    (deviceServing (.valid (.object [("measurements", .array [
        .object [("co2_ppm", .string "412.5"), ("humidity_RH", .string "45.2"),
          ("pm10_ugm3", .string "3.1"), ("pm25_ugm3", .string "1.8")]])])))
    ⟨1, 2, 3, 4, 5⟩
    [("co2_ppm", .string "412.5"), ("humidity_RH", .string "45.2"),
      ("pm10_ugm3", .string "3.1"), ("pm25_ugm3", .string "1.8")]
    [] .Temp rfl rfl rfl rfl rfl
    (by
      intro key val hmem _
      simp only [List.mem_cons, Prod.mk.injEq, List.mem_nil_iff, or_false] at hmem
      rcases hmem with ⟨_, rfl⟩ | ⟨_, rfl⟩ | ⟨_, rfl⟩ | ⟨_, rfl⟩
      · exact ⟨_, rfl, rfl⟩
      · exact ⟨_, rfl, rfl⟩
      · exact ⟨_, rfl, rfl⟩
      · exact ⟨_, rfl, rfl⟩)
    (by simp)
    (by
      intro key val hmem
      simp only [List.mem_cons, Prod.mk.injEq, List.mem_nil_iff, or_false] at hmem
      rcases hmem with ⟨rfl, _⟩ | ⟨rfl, _⟩ | ⟨rfl, _⟩ | ⟨rfl, _⟩ <;> decide)).1

/-- C5 as stated fails: a measurement object without the co2_ppm member decodes without
error, the refresh succeeds and overwrites the co2_ppm gauge with the zero value; and a
document object without the measurements array gives the empty-data error, not a decode
error. -/
theorem updateMetrics_accepts_missing_field :
    (updateMetrics exampleLib (deviceServing (.valid (.object [("measurements", .array [
        .object [("humidity_RH", .string "45.2"), ("pm10_ugm3", .string "3.1"),
          ("pm25_ugm3", .string "1.8"), ("temperature_C", .string "21.4")]])])))
      ⟨1, 2, 3, 4, 5⟩).err = none ∧
    (updateMetrics exampleLib (deviceServing (.valid (.object [("measurements", .array [
        .object [("humidity_RH", .string "45.2"), ("pm10_ugm3", .string "3.1"),
          ("pm25_ugm3", .string "1.8"), ("temperature_C", .string "21.4")]])])))
      ⟨1, 2, 3, 4, 5⟩).gauges
      = ⟨0, 0x404699999999999A, 0x4008CCCCCCCCCCCD, 0x3FFCCCCCCCCCCCCD,
          0x4035666666666666⟩ ∧
    (updateMetrics exampleLib (deviceServing (.valid (.object []))) ⟨1, 2, 3, 4, 5⟩).err
      = some (.errorString "sensor returned invalid data") := by
  refine ⟨rfl, rfl, rfl⟩

/-! ## C6: the scrape endpoint -/

/-- C6: MetricHandler runs updateMetrics once; it writes status 500 followed by the
description of the refresh error exactly when updateMetrics returns an error, and then
promHandler is not called; when updateMetrics returns no error the only thing done to
the response is the call of promHandler on the gauges just updated. -/
theorem MetricHandler_response {F : Type} (L : Lib F) (w : World) (g : Gauges F) :
    (MetricHandler L w g).run = updateMetrics L w g ∧
    (∀ e, (updateMetrics L w g).err = some e →
      (MetricHandler L w g).response = [.writeHeader 500, .write (e.Error L)]) ∧
    ((updateMetrics L w g).err = none →
      (MetricHandler L w g).response = [.serveHTTP (updateMetrics L w g).gauges]) ∧
    ((∃ body, (MetricHandler L w g).response = [.writeHeader 500, .write body]) ↔
      (updateMetrics L w g).err ≠ none) ∧
    ((∃ shown, HttpEvent.serveHTTP shown ∈ (MetricHandler L w g).response) ↔
      (updateMetrics L w g).err = none) := by
  unfold MetricHandler
  cases h : (updateMetrics L w g).err <;> simp [h]

/-! ## C7: the first failing step decides the result -/

/-- C7: when step k is the first of dial, authenticate, mount, open, read, decode to
fail, with error value e, updateMetrics returns exactly e, the steps called are the
ones before k (all successful) followed by k and nothing after it, and the scrape
answers 500 with the description of e; when no step fails all six are called in
program order. -/
theorem updateMetrics_first_failure {F : Type} (L : Lib F) (w : World) (g : Gauges F)
    (k : Step) (e : GoError) (h : firstFailure L w = some (k, e)) :
    (updateMetrics L w g).err = some e ∧
    callsOf (updateMetrics L w g).trace = (Step.before k).map (fun s => (s, true)) ++ [(k, false)] ∧
    (updateMetrics L w g).gauges = g ∧
    (MetricHandler L w g).response = [.writeHeader 500, .write (e.Error L)] ∧
    ∀ (w2 : World) (g2 : Gauges F), firstFailure L w2 = none →
      callsOf (updateMetrics L w2 g2).trace = Step.all.map (fun s => (s, true)) := by
  refine ⟨?_, ?_, ?_, ?_, ?_⟩
  · have hp := updateMetrics_path L w g
    generalize updateMetrics L w g = r at hp
    cases hp <;> simp_all [firstFailure]
  · have hp := updateMetrics_path L w g
    generalize updateMetrics L w g = r at hp
    cases hp <;> simp_all [firstFailure, callsOf, Step.before] <;>
      (obtain ⟨rfl, rfl⟩ := h; rfl)
  · have hp := updateMetrics_path L w g
    generalize updateMetrics L w g = r at hp
    cases hp <;> simp_all [firstFailure]
  · have hp := updateMetrics_path L w g
    unfold MetricHandler
    generalize updateMetrics L w g = r at hp
    cases hp <;> simp_all [firstFailure, emptyDataError]
  · intro w2 g2 h2
    have hp := updateMetrics_path L w2 g2
    generalize updateMetrics L w2 g2 = r at hp
    cases hp <;> simp_all [firstFailure, callsOf, Step.all]

/-- C7 on a device whose share cannot be mounted: the mount error comes back as it
is, open, read and decode are never called, and the 500 body is its description. -/
theorem updateMetrics_first_failure_example :
    (updateMetrics exampleLib
        ⟨none, none, some (.device "mount failed"), none, .ok exampleDocument,
          none, none, none, none⟩ freshGauges).err = some (.device "mount failed") ∧
    callsOf (updateMetrics exampleLib
        ⟨none, none, some (.device "mount failed"), none, .ok exampleDocument,
          none, none, none, none⟩ freshGauges).trace
      = [(.dial, true), (.authenticate, true), (.mount, false)] ∧
    (MetricHandler exampleLib
        ⟨none, none, some (.device "mount failed"), none, .ok exampleDocument,
          none, none, none, none⟩ freshGauges).response
      = [.writeHeader 500, .write "mount failed"] :=
  have h := updateMetrics_first_failure exampleLib
    ⟨none, none, some (.device "mount failed"), none, .ok exampleDocument,
      none, none, none, none⟩ freshGauges .mount (.device "mount failed") rfl
  ⟨h.1, h.2.1, h.2.2.2.1⟩

/-! ## C8: teardown -/

/-- C8: in every run of updateMetrics, successful or failed at any step, the resources
released are exactly the resources acquired, each once, in the reverse of the order
of acquisition, and the releases are the last things done before the return. -/
theorem updateMetrics_releases_acquired {F : Type} (L : Lib F) (w : World)
    (g : Gauges F) :
    releasedOf (updateMetrics L w g).trace = (acquiredOf (updateMetrics L w g).trace).reverse ∧
    (releasedOf (updateMetrics L w g).trace).Nodup ∧
    (releasedOf (updateMetrics L w g).trace).Sublist [.file, .share, .session, .conn] ∧
    ∃ body : List (Event F),
      (updateMetrics L w g).trace
        = body ++ (acquiredOf body).reverse.map (fun r => Event.release r (w.teardown r)) ∧
      ∀ ev ∈ body, ev.isRelease = false := by
  have hp := updateMetrics_path L w g
  generalize updateMetrics L w g = r at hp
  cases hp
  case dial e h =>
    exact ⟨by simp [releasedOf, acquiredOf], by simp [releasedOf], by simp [releasedOf],
      [.call .dial false], by simp [acquiredOf], by simp [Event.isRelease]⟩
  case authenticate e h1 h =>
    exact ⟨by simp [releasedOf, acquiredOf], by simp [releasedOf], by simp [releasedOf],
      [.call .dial true, .call .authenticate false],
      by simp [acquiredOf, World.teardown], by simp [Event.isRelease]⟩
  case mount e h1 h2 h =>
    exact ⟨by simp [releasedOf, acquiredOf], by simp [releasedOf], by simp [releasedOf],
      [.call .dial true, .call .authenticate true, .call .mount false],
      by simp [acquiredOf, World.teardown], by simp [Event.isRelease]⟩
  case openFile e h1 h2 h3 h =>
    exact ⟨by simp [releasedOf, acquiredOf], by simp [releasedOf], by simp [releasedOf],
      [.call .dial true, .call .authenticate true, .call .mount true, .call .openFile false],
      by simp [acquiredOf, World.teardown], by simp [Event.isRelease]⟩
  case read e h1 h2 h3 h4 h =>
    exact ⟨by simp [releasedOf, acquiredOf], by simp [releasedOf], by simp [releasedOf],
      [.call .dial true, .call .authenticate true, .call .mount true, .call .openFile true,
       .call .read false],
      by simp [acquiredOf, World.teardown], by simp [Event.isRelease]⟩
  case decode data e h1 h2 h3 h4 h5 h =>
    exact ⟨by simp [releasedOf, acquiredOf], by simp [releasedOf], by simp [releasedOf],
      [.call .dial true, .call .authenticate true, .call .mount true, .call .openFile true,
       .call .read true, .call .decode false],
      by simp [acquiredOf, World.teardown], by simp [Event.isRelease]⟩
  case empty data h1 h2 h3 h4 h5 h =>
    exact ⟨by simp [releasedOf, acquiredOf], by simp [releasedOf], by simp [releasedOf],
      [.call .dial true, .call .authenticate true, .call .mount true, .call .openFile true,
       .call .read true, .call .decode true],
      by simp [acquiredOf, World.teardown], by simp [Event.isRelease]⟩
  case succeeded data m rest h1 h2 h3 h4 h5 h =>
    exact ⟨by simp [releasedOf, acquiredOf], by simp [releasedOf], by simp [releasedOf],
      [.call .dial true, .call .authenticate true, .call .mount true, .call .openFile true,
       .call .read true, .call .decode true,
       .set .CO2Gauge m.CO2, .set .HumidityGauge m.Humidity, .set .PM10Gauge m.PM10,
       .set .PM25Gauge m.PM25, .set .TempGauge m.Temp],
      by simp [acquiredOf, World.teardown], by simp [Event.isRelease]⟩

/-! ## C9: only the last successful refresh counts -/

/-- C9: after any sequence of refreshes whose last one succeeds, the gauges are the
fields of element 0 of the document of that last refresh; they do not depend on the
initial gauges nor on the refreshes before it; a failed refresh followed by it gives
what it gives alone, and running it twice gives what running it once gives. -/
theorem refreshAll_last_success {F : Type} (L : Lib F) (ws : List World) (w : World)
    (g0 : Gauges F) (h : (updateMetrics L w (refreshAll L ws g0)).err = none) :
    (∃ data m rest, w.read = .ok data ∧ Unmarshal L data = .ok (m :: rest) ∧
      refreshAll L (ws ++ [w]) g0 = Gauges.ofMeasurement m) ∧
    (∀ (ws2 : List World) (g2 : Gauges F),
      refreshAll L (ws2 ++ [w]) g2 = refreshAll L (ws ++ [w]) g0) ∧
    (∀ (wf : World) (g2 : Gauges F), (updateMetrics L wf g2).err ≠ none →
      refreshAll L [wf, w] g2 = refreshAll L [w] g2) ∧
    (∀ g2 : Gauges F, refreshAll L [w, w] g2 = refreshAll L [w] g2) := by
  have hp := updateMetrics_path L w (refreshAll L ws g0)
  have key : ∃ data m rest, w.dial = none ∧ w.authenticate = none ∧ w.mount = none ∧
      w.openFile = none ∧ w.read = .ok data ∧ Unmarshal L data = .ok (m :: rest) := by
    revert h
    generalize updateMetrics L w (refreshAll L ws g0) = r at hp
    cases hp <;> simp
    case succeeded data m rest h1 h2 h3 h4 h5 h6 =>
      exact ⟨h1, h2, h3, h4, data, h5, m, rest, h6⟩
  obtain ⟨data, m, rest, h1, h2, h3, h4, h5, h6⟩ := key
  have all : ∀ (ws2 : List World) (g2 : Gauges F),
      refreshAll L (ws2 ++ [w]) g2 = Gauges.ofMeasurement m := by
    intro ws2 g2
    rw [refreshAll_append, updateMetrics_succeeded L w _ data m rest h1 h2 h3 h4 h5 h6]
  refine ⟨⟨data, m, rest, h5, h6, all ws g0⟩, ?_, ?_, ?_⟩
  · intro ws2 g2
    rw [all ws2 g2, all ws g0]
  · intro wf g2 _
    have a := all [wf] g2
    have b := all [] g2
    simp only [List.cons_append, List.nil_append] at a b
    rw [a, b]
  · intro g2
    have a := all [w] g2
    have b := all [] g2
    simp only [List.cons_append, List.nil_append] at a b
    rw [a, b]

/-- C9 on a failed refresh (empty array) followed by the example document, starting
from gauges left by something else. -/
theorem refreshAll_last_success_example :
    refreshAll exampleLib ([] ++ [deviceServing exampleDocument]) freshGauges
      = refreshAll exampleLib ([deviceServing emptyDocument] ++ [deviceServing exampleDocument])
          ⟨1, 2, 3, 4, 5⟩ ∧
    refreshAll exampleLib [deviceServing exampleDocument, deviceServing exampleDocument]
        freshGauges
      = refreshAll exampleLib [deviceServing exampleDocument] freshGauges :=
  have h := refreshAll_last_success exampleLib [deviceServing emptyDocument]
    (deviceServing exampleDocument) ⟨1, 2, 3, 4, 5⟩ rfl
  ⟨h.2.1 [] freshGauges, h.2.2.2 freshGauges⟩

/-! ## C10: teardown errors are dropped -/

/-- C10: two devices that agree on the outcomes of dial, authenticate, mount, open and
read, and differ at most in what the four teardown calls return, give the same
returned error, the same gauges, the same steps and the same Set calls. -/
theorem updateMetrics_ignores_teardown_errors {F : Type} (L : Lib F) (w w2 : World)
    (g : Gauges F) (hdial : w.dial = w2.dial) (hauth : w.authenticate = w2.authenticate)
    (hmount : w.mount = w2.mount) (hopen : w.openFile = w2.openFile)
    (hread : w.read = w2.read) :
    (updateMetrics L w g).err = (updateMetrics L w2 g).err ∧
    (updateMetrics L w g).gauges = (updateMetrics L w2 g).gauges ∧
    callsOf (updateMetrics L w g).trace = callsOf (updateMetrics L w2 g).trace ∧
    setsOf (updateMetrics L w g).trace = setsOf (updateMetrics L w2 g).trace := by
  have hp := updateMetrics_path L w g
  generalize updateMetrics L w g = r at hp
  cases hp
  case dial e h =>
    rw [updateMetrics_dial_failed L w2 g e (hdial ▸ h)]
    simp [callsOf, setsOf]
  case authenticate e h1 h =>
    rw [updateMetrics_authenticate_failed L w2 g e (hdial ▸ h1) (hauth ▸ h)]
    simp [callsOf, setsOf]
  case mount e h1 h2 h =>
    rw [updateMetrics_mount_failed L w2 g e (hdial ▸ h1) (hauth ▸ h2) (hmount ▸ h)]
    simp [callsOf, setsOf]
  case openFile e h1 h2 h3 h =>
    rw [updateMetrics_openFile_failed L w2 g e (hdial ▸ h1) (hauth ▸ h2) (hmount ▸ h3)
      (hopen ▸ h)]
    simp [callsOf, setsOf]
  case read e h1 h2 h3 h4 h =>
    rw [updateMetrics_read_failed L w2 g e (hdial ▸ h1) (hauth ▸ h2) (hmount ▸ h3)
      (hopen ▸ h4) (hread ▸ h)]
    simp [callsOf, setsOf]
  case decode data e h1 h2 h3 h4 h5 h =>
    rw [updateMetrics_decode_failed L w2 g data e (hdial ▸ h1) (hauth ▸ h2) (hmount ▸ h3)
      (hopen ▸ h4) (hread ▸ h5) h]
    simp [callsOf, setsOf]
  case empty data h1 h2 h3 h4 h5 h =>
    rw [updateMetrics_empty L w2 g data (hdial ▸ h1) (hauth ▸ h2) (hmount ▸ h3)
      (hopen ▸ h4) (hread ▸ h5) h]
    simp [callsOf, setsOf]
  case succeeded data m rest h1 h2 h3 h4 h5 h =>
    rw [updateMetrics_succeeded L w2 g data m rest (hdial ▸ h1) (hauth ▸ h2) (hmount ▸ h3)
      (hopen ▸ h4) (hread ▸ h5) h]
    simp [callsOf, setsOf]

/-- C10 on the example document: a device on which all four teardown calls return an
error gives the successful result of the device on which none does. -/
theorem updateMetrics_ignores_teardown_errors_example :
    (updateMetrics exampleLib
        ⟨none, none, none, none, .ok exampleDocument, some (.device "close failed"),
          some (.device "umount failed"), some (.device "logoff failed"),
          some (.device "connection already closed")⟩ freshGauges).err = none ∧
    (updateMetrics exampleLib
        ⟨none, none, none, none, .ok exampleDocument, some (.device "close failed"),
          some (.device "umount failed"), some (.device "logoff failed"),
          some (.device "connection already closed")⟩ freshGauges).gauges
      = (updateMetrics exampleLib (deviceServing exampleDocument) freshGauges).gauges :=
  have h := updateMetrics_ignores_teardown_errors exampleLib
    ⟨none, none, none, none, .ok exampleDocument, some (.device "close failed"),
      some (.device "umount failed"), some (.device "logoff failed"),
      some (.device "connection already closed")⟩
    (deviceServing exampleDocument) freshGauges rfl rfl rfl rfl rfl
  ⟨h.1.trans rfl, h.2.1⟩

end AirQ
